import Mathlib

/-!
# Request/response filter stage of `trace/filters.go`

A shallow embedding of `src/trace/filters.go`:

* the traffic events (`akinet.ParsedNetworkTraffic` and its HTTP contents),
* `compileRegex` and the five predicates built by the `New...Collector` factories,
* the stateful `genericRequestFilter` with its `Process` and `Close` methods, alone and
  with a second `genericRequestFilter` as its wrapped consumer.

Go pointers that may be nil are `Option`s.  A Go function that can abort with a run-time
panic (a nil dereference) returns an `Option` whose `none` is the panic.  The wrapped
consumer is a state machine given by its two methods; every call the stage makes to it
is recorded in the result of `Process`/`Close`.

Three things live outside `filters.go` and are parameters of the definitions:
`learn.ToWitnessID`, `trackers.IsTrackerDomain` and the standard library's
`regexp.Compile`.  For closed examples `regexp.Compile` is instantiated with `Go.Compile`,
a model of Go's `regexp` on a small fragment of its pattern language.
-/

namespace Trace

/-! ## Data model -/

/-- Stream identifiers are `uuid.UUID` values: 16 bytes. -/
abbrev UUID := Fin (2 ^ 128)

/-- Go's `error` interface values, by their message. -/
abbrev Err := String

/-- The fields of `url.URL` that the filters can see. -/
structure URL where
  Scheme : String
  Host : String
  Path : String
  RawQuery : String
  deriving DecidableEq

/-- The record `akinet.HTTPRequest`; `URL` is a pointer in Go and may be nil. -/
structure HTTPRequest where
  StreamID : UUID
  Seq : Int
  Method : String
  URL : Option URL
  Host : String
  Body : String
  deriving DecidableEq

/-- The record `akinet.HTTPResponse`. -/
structure HTTPResponse where
  StreamID : UUID
  Seq : Int
  StatusCode : Int
  Body : String
  deriving DecidableEq

/-- The dynamic type of `ParsedNetworkTraffic.Content`: the two HTTP kinds the type switch
of `Process` names, and everything else (other protocols, raw bytes, a nil interface). -/
inductive ParsedNetworkContent where
  | HTTPRequest (c : HTTPRequest)
  | HTTPResponse (c : HTTPResponse)
  | other (kind : Nat) (payload : String)
  deriving DecidableEq

/-- The record `akinet.ParsedNetworkTraffic`. -/
structure ParsedNetworkTraffic where
  SrcPort : Nat
  DstPort : Nat
  Content : ParsedNetworkContent
  ObservationTime : Nat
  deriving DecidableEq

/-- The interface `Collector`, as the two methods of an implementation whose mutable state
has type `σ`.  Each method returns the state after the call and the `error` (nil = `none`). -/
structure Collector (σ : Type) where
  Process : σ → ParsedNetworkTraffic → σ × Option Err
  Close : σ → σ × Option Err

/-! ## Regular expressions -/

/-- What the code uses of a compiled `*regexp.Regexp`: its source text (`r.String()`) and
its unanchored match test (`r.MatchString`). -/
structure Regexp where
  expr : String
  MatchString : String → Bool

/-- The method call `re.MatchString(s)` on a pointer `re` that may be nil: a nil receiver
is dereferenced and the call panics. -/
def callMatchString (re : Option Regexp) (s : String) : Option Bool :=
  match re with
  | some r => some (r.MatchString s)
  | none => none

/-- The function `compileRegex`: the texts of the matchers joined with `|` and compiled;
the error of `regexp.Compile` is discarded, so a failed compilation gives the nil pointer. -/
def compileRegex (Compile : String → Option Regexp) (matchers : List Regexp) :
    Option Regexp :=
  let matchersStr := matchers.map (fun r => r.expr)
  Compile (String.intercalate "|" matchersStr)

/-! ## A model of Go's `regexp` on a fragment of its pattern language

The fragment: literal characters, a backslash before an ASCII character that is not a
letter, digit or underscore (the character itself), `.` (any character but a newline),
`^` and `$` (begin and end of the text, as compiled by `regexp.Compile` without flags),
`|`, and the quotation `\Q...\E` (everything up to the first `\E`, or up to the end of
the pattern, is literal text, backslashes included).  Two patterns are rejected, as Go
rejects them: one that ends in a lone backslash, and one with a `)` where no group is
open.  Everything else (groups, classes, repetitions, flags, the other escapes) is left
out: `parse` answers `unsupported` there and no statement below evaluates the model on
such a pattern.  Texts and patterns are sequences of Unicode characters. -/

namespace Go

/-- One element of an alternative of a pattern. -/
inductive Item where
  | lit (c : Char)
  | anyNotNL
  | beginText
  | endText
  deriving DecidableEq

/-- Why a pattern has no program in the model: Go rejects it, or it lies outside the
modelled fragment. -/
inductive ParseError where
  | invalid
  | unsupported
  deriving DecidableEq

/-- The characters with a special meaning in a pattern. -/
def isMeta (c : Char) : Bool :=
  c ∈ ['\\', '.', '+', '*', '?', '(', ')', '|', '[', ']', '{', '}', '^', '$']

/-- ASCII letters and digits. -/
def isAlnum (c : Char) : Bool :=
  ('0' ≤ c ∧ c ≤ '9') ∨ ('a' ≤ c ∧ c ≤ 'z') ∨ ('A' ≤ c ∧ c ≤ 'Z')

/-- The parser: `quoted` says whether the position is inside `\Q...`, `cur` is the
alternative being read, `done` the alternatives already closed by a `|`. -/
def parse : Bool → List Char → List Item → List (List Item) →
    Except ParseError (List (List Item))
  | _, [], cur, done => .ok (done ++ [cur])
  | true, [c], cur, done => .ok (done ++ [cur ++ [.lit c]])
  | true, c :: d :: t, cur, done =>
    if c = '\\' ∧ d = 'E' then parse false t cur done
    else parse true (d :: t) (cur ++ [.lit c]) done
  | false, [c], cur, done =>
    if c = '|' then .ok (done ++ [cur] ++ [[]])
    else if c = '^' then .ok (done ++ [cur ++ [.beginText]])
    else if c = '$' then .ok (done ++ [cur ++ [.endText]])
    else if c = '.' then .ok (done ++ [cur ++ [.anyNotNL]])
    else if c = '\\' then .error .invalid
    else if c = ')' then .error .invalid
    else if isMeta c then .error .unsupported
    else .ok (done ++ [cur ++ [.lit c]])
  | false, c :: d :: t, cur, done =>
    if c = '|' then parse false (d :: t) [] (done ++ [cur])
    else if c = '^' then parse false (d :: t) (cur ++ [.beginText]) done
    else if c = '$' then parse false (d :: t) (cur ++ [.endText]) done
    else if c = '.' then parse false (d :: t) (cur ++ [.anyNotNL]) done
    else if c = '\\' then
      if d = 'Q' then parse true t cur done
      else if d.toNat < 128 ∧ ¬ isAlnum d ∧ d ≠ '_' then parse false t (cur ++ [.lit d]) done
      else .error .unsupported
    else if c = ')' then .error .invalid
    else if isMeta c then .error .unsupported
    else parse false (d :: t) (cur ++ [.lit c]) done

/-- Whether an alternative matches a prefix of the text `rest`; `atStart` says whether
`rest` is the whole text. -/
def matchItems : List Item → Bool → List Char → Bool
  | [], _, _ => true
  | .lit c :: is, _, x :: xs => decide (x = c) && matchItems is false xs
  | .lit _ :: _, _, [] => false
  | .anyNotNL :: is, _, x :: xs => decide (x ≠ '\n') && matchItems is false xs
  | .anyNotNL :: _, _, [] => false
  | .beginText :: is, atStart, xs => atStart && matchItems is atStart xs
  | .endText :: is, atStart, xs => xs.isEmpty && matchItems is atStart xs

/-- Unanchored search: some alternative matches at some position of the text. -/
def searchFrom (prog : List (List Item)) : Bool → List Char → Bool
  | atStart, [] => prog.any (fun b => matchItems b atStart [])
  | atStart, x :: xs =>
    prog.any (fun b => matchItems b atStart (x :: xs)) || searchFrom prog false xs

/-- The function `regexp.Compile` on the fragment. -/
def Compile (expr : String) : Option Regexp :=
  match parse false expr.toList [] [] with
  | .ok prog => some { expr := expr, MatchString := fun s => searchFrom prog true s.toList }
  | .error _ => none

end Go

/-! ## The predicates of the five factories -/

/-- The `filterFunc` closure of `NewHTTPPathFilterCollector`. -/
def pathFilterFunc (Compile : String → Option Regexp) (matchers : List Regexp)
    (r : HTTPRequest) : Option Bool :=
  match r.URL with
  | some u => (callMatchString (compileRegex Compile matchers) u.Path).map (fun b => !b)
  | none => some true

/-- The `filterFunc` closure of `NewHTTPHostFilterCollector`. -/
def hostFilterFunc (Compile : String → Option Regexp) (matchers : List Regexp)
    (r : HTTPRequest) : Option Bool :=
  (callMatchString (compileRegex Compile matchers) r.Host).map (fun b => !b)

/-- The `filterFunc` closure of `NewHTTPPathAllowlistCollector`. -/
def pathAllowlistFunc (Compile : String → Option Regexp) (matchers : List Regexp)
    (r : HTTPRequest) : Option Bool :=
  match r.URL with
  | some u => callMatchString (compileRegex Compile matchers) u.Path
  | none => some false

/-- The `filterFunc` closure of `NewHTTPHostAllowlistCollector`: the regular expression is
compiled first, then `r.URL.Path` is read without a nil check. -/
def hostAllowlistFunc (Compile : String → Option Regexp) (matchers : List Regexp)
    (r : HTTPRequest) : Option Bool :=
  let compiledRegex := compileRegex Compile matchers
  match r.URL with
  | some u => callMatchString compiledRegex u.Path
  | none => none

/-- The `filterFunc` closure of `New3PTrackerFilterCollector`. -/
def trackerFilterFunc (IsTrackerDomain : String → Bool) (r : HTTPRequest) : Option Bool :=
  match r.URL with
  | some u => some (!IsTrackerDomain u.Host)
  | none => some true

/-! ## The filter stage -/

/-- The struct `genericRequestFilter`.  `Collector` holds the state of the wrapped consumer,
`filterFunc` may be nil, and `filteredIDs` is a Go map used as a set (nil until the first
insertion). -/
structure genericRequestFilter (σ W : Type) where
  Collector : σ
  filterFunc : Option (HTTPRequest → Option Bool)
  filteredIDs : Option (Finset W)

/-- What one call of a method of the stage did: the receiver after the call, the arguments
of the calls made to the wrapped consumer, in order, and the returned `error`. -/
structure Outcome (σ W α : Type) where
  fc : genericRequestFilter σ W
  calls : List α
  ret : Option Err

variable {σ W : Type} [DecidableEq W]

/-- Reading the map `filteredIDs`: a nil map reads as the empty map. -/
def genericRequestFilter.ids (fc : genericRequestFilter σ W) : Finset W :=
  fc.filteredIDs.getD ∅

/-- The type switch of `Process`: the value of `include` and the map `filteredIDs` after
it; `none` when the predicate panics. -/
def genericRequestFilter.typeSwitch (ToWitnessID : UUID → Int → W)
    (fc : genericRequestFilter σ W) (t : ParsedNetworkTraffic) :
    Option (Bool × Option (Finset W)) :=
  match t.Content with
  | .HTTPRequest c =>
    match fc.filterFunc with
    | none => some (true, fc.filteredIDs)
    | some f =>
      match f c with
      | none => none
      | some true => some (true, fc.filteredIDs)
      | some false => some (false, some (insert (ToWitnessID c.StreamID c.Seq) fc.ids))
  | .HTTPResponse c =>
    if ToWitnessID c.StreamID c.Seq ∈ fc.ids then some (false, fc.filteredIDs)
    else some (true, fc.filteredIDs)
  | .other _ _ => some (true, fc.filteredIDs)

/-- The method `genericRequestFilter.Process`. -/
def genericRequestFilter.Process (impl : Trace.Collector σ) (ToWitnessID : UUID → Int → W)
    (fc : genericRequestFilter σ W) (t : ParsedNetworkTraffic) :
    Option (Outcome σ W ParsedNetworkTraffic) :=
  match fc.typeSwitch ToWitnessID t with
  | none => none
  | some (true, ids) =>
    let r := impl.Process fc.Collector t
    some { fc := { fc with Collector := r.1, filteredIDs := ids }, calls := [t], ret := r.2 }
  | some (false, ids) =>
    some { fc := { fc with filteredIDs := ids }, calls := [], ret := none }

/-- The method `genericRequestFilter.Close`. -/
def genericRequestFilter.Close (impl : Trace.Collector σ) (fc : genericRequestFilter σ W) :
    Outcome σ W Unit :=
  let r := impl.Close fc.Collector
  { fc := { fc with Collector := r.1 }, calls := [()], ret := r.2 }

/-- Passing the events of a list to `Process` one after another, whatever errors are
returned: the stage after the last call and what each call did. -/
def genericRequestFilter.run (impl : Trace.Collector σ) (ToWitnessID : UUID → Int → W)
    (fc : genericRequestFilter σ W) :
    List ParsedNetworkTraffic →
      Option (genericRequestFilter σ W × List (Outcome σ W ParsedNetworkTraffic))
  | [] => some (fc, [])
  | t :: ts =>
    match fc.Process impl ToWitnessID t with
    | none => none
    | some o =>
      match genericRequestFilter.run impl ToWitnessID o.fc ts with
      | none => none
      | some (fc', os) => some (fc', o :: os)

/-- One call made on a stage by its owner. -/
inductive Call where
  | process (t : ParsedNetworkTraffic)
  | close
  deriving DecidableEq

/-- Making the calls of a list on a stage one after another, whatever errors are
returned: the stage after the last call; `none` when a call of `Process` panics. -/
def genericRequestFilter.runCalls (impl : Trace.Collector σ) (ToWitnessID : UUID → Int → W)
    (fc : genericRequestFilter σ W) : List Call → Option (genericRequestFilter σ W)
  | [] => some fc
  | .process t :: cs =>
    match fc.Process impl ToWitnessID t with
    | none => none
    | some o => genericRequestFilter.runCalls impl ToWitnessID o.fc cs
  | .close :: cs =>
    genericRequestFilter.runCalls impl ToWitnessID (fc.Close impl).fc cs

/-! ## Two stages in a chain -/

/-- What one call of `Process` did on a stage whose wrapped consumer is a second stage: the
outer stage after the call (the inner one is its `Collector`), the arguments of the calls
made to the inner stage, the arguments of the calls the inner stage made to the final
consumer, and the returned `error`. -/
structure ChainOutcome (σ W : Type) where
  fc : genericRequestFilter (genericRequestFilter σ W) W
  calls : List ParsedNetworkTraffic
  delivered : List ParsedNetworkTraffic
  ret : Option Err

/-- The method `genericRequestFilter.Process` of a stage whose field `Collector` holds a
second `genericRequestFilter`: the call `fc.Collector.Process(t)` is the method `Process`
of the inner stage, and a panic of the inner stage ends the outer call too. -/
def genericRequestFilter.ProcessChained (impl : Trace.Collector σ)
    (ToWitnessID : UUID → Int → W) (fc : genericRequestFilter (genericRequestFilter σ W) W)
    (t : ParsedNetworkTraffic) : Option (ChainOutcome σ W) :=
  match fc.typeSwitch ToWitnessID t with
  | none => none
  | some (true, ids) =>
    match fc.Collector.Process impl ToWitnessID t with
    | none => none
    | some o =>
      some { fc := { fc with Collector := o.fc, filteredIDs := ids }, calls := [t],
             delivered := o.calls, ret := o.ret }
  | some (false, ids) =>
    some { fc := { fc with filteredIDs := ids }, calls := [], delivered := [], ret := none }

/-- Passing the events of a list to the outer stage of a chain one after another: the
outer stage after the last call and the events delivered to the final consumer, in
order. -/
def genericRequestFilter.runChained (impl : Trace.Collector σ)
    (ToWitnessID : UUID → Int → W) (fc : genericRequestFilter (genericRequestFilter σ W) W) :
    List ParsedNetworkTraffic →
      Option (genericRequestFilter (genericRequestFilter σ W) W × List ParsedNetworkTraffic)
  | [] => some (fc, [])
  | t :: ts =>
    match fc.ProcessChained impl ToWitnessID t with
    | none => none
    | some o =>
      match genericRequestFilter.runChained impl ToWitnessID o.fc ts with
      | none => none
      | some (fc', ds) => some (fc', o.delivered ++ ds)

/-- A freshly built stage `&genericRequestFilter{Collector: col, filterFunc: p}` for a
predicate `p` that always returns. -/
def stageOf (p : HTTPRequest → Bool) (col : σ) : genericRequestFilter σ W :=
  { Collector := col, filterFunc := some (fun r => some (p r)), filteredIDs := none }

/-! ## The factories -/

/-- The constructor `NewHTTPPathFilterCollector`. -/
def NewHTTPPathFilterCollector (Compile : String → Option Regexp) (matchers : List Regexp)
    (col : σ) : genericRequestFilter σ W :=
  { Collector := col, filterFunc := some (pathFilterFunc Compile matchers),
    filteredIDs := none }

/-- The constructor `NewHTTPHostFilterCollector`. -/
def NewHTTPHostFilterCollector (Compile : String → Option Regexp) (matchers : List Regexp)
    (col : σ) : genericRequestFilter σ W :=
  { Collector := col, filterFunc := some (hostFilterFunc Compile matchers),
    filteredIDs := none }

/-- The constructor `NewHTTPPathAllowlistCollector`. -/
def NewHTTPPathAllowlistCollector (Compile : String → Option Regexp)
    (matchers : List Regexp) (col : σ) : genericRequestFilter σ W :=
  { Collector := col, filterFunc := some (pathAllowlistFunc Compile matchers),
    filteredIDs := none }

/-- The constructor `NewHTTPHostAllowlistCollector`. -/
def NewHTTPHostAllowlistCollector (Compile : String → Option Regexp)
    (matchers : List Regexp) (col : σ) : genericRequestFilter σ W :=
  { Collector := col, filterFunc := some (hostAllowlistFunc Compile matchers),
    filteredIDs := none }

/-- The constructor `New3PTrackerFilterCollector`. -/
def New3PTrackerFilterCollector (IsTrackerDomain : String → Bool) (col : σ) :
    genericRequestFilter σ W :=
  { Collector := col, filterFunc := some (trackerFilterFunc IsTrackerDomain),
    filteredIDs := none }

/-! ## Concrete consumers, identifiers and events for the closed examples -/

namespace Example

/-- A terminal consumer that records every event it is given and never fails. -/
def recorder : Trace.Collector (List ParsedNetworkTraffic) :=
  { Process := fun s t => (s ++ [t], none), Close := fun s => (s, none) }

/-- A terminal consumer whose every call fails. -/
def failing : Trace.Collector Unit :=
  { Process := fun s _ => (s, some "downstream failure"),
    Close := fun s => (s, some "close failure") }

/-- An injective witness identifier: the pair itself. -/
def pairID (s : UUID) (n : Int) : UUID × Int := (s, n)

/-- A Request record with a URL. -/
def httpReq (stream : UUID) (seq : Int) (host path : String) : HTTPRequest :=
  { StreamID := stream, Seq := seq, Method := "GET", Host := host, Body := "",
    URL := some { Scheme := "http", Host := host, Path := path, RawQuery := "" } }

/-- A Request record whose URL is absent. -/
def httpReqNoURL (stream : UUID) (seq : Int) (host : String) : HTTPRequest :=
  { StreamID := stream, Seq := seq, Method := "GET", Host := host, Body := "", URL := none }

/-- A Response record. -/
def httpResp (stream : UUID) (seq : Int) : HTTPResponse :=
  { StreamID := stream, Seq := seq, StatusCode := 200, Body := "" }

/-- A Request event with a URL. -/
def req (stream : UUID) (seq : Int) (host path : String) : ParsedNetworkTraffic :=
  { SrcPort := 50000, DstPort := 80, ObservationTime := 0,
    Content := .HTTPRequest (httpReq stream seq host path) }

/-- A Request event whose URL is absent. -/
def reqNoURL (stream : UUID) (seq : Int) (host : String) : ParsedNetworkTraffic :=
  { SrcPort := 50000, DstPort := 80, ObservationTime := 0,
    Content := .HTTPRequest (httpReqNoURL stream seq host) }

/-- A Response event. -/
def resp (stream : UUID) (seq : Int) : ParsedNetworkTraffic :=
  { SrcPort := 80, DstPort := 50000, ObservationTime := 1,
    Content := .HTTPResponse (httpResp stream seq) }

/-- An event that is neither a Request nor a Response. -/
def tcpMeta : ParsedNetworkTraffic :=
  { SrcPort := 50000, DstPort := 80, ObservationTime := 2, Content := .other 7 "syn" }

/-- The pattern `^/health$`, compiled. -/
def health : Regexp := (Go.Compile "^/health$").get (by decide)

/-- The path denylist of the scenario of the specification: `^/health$` in front of the
recording consumer. -/
def healthStage : genericRequestFilter (List ParsedNetworkTraffic) (UUID × Int) :=
  NewHTTPPathFilterCollector Go.Compile [health] []

/-- The pattern `^api\.example\.com$`, compiled. -/
def apiHost : Regexp := (Go.Compile "^api\\.example\\.com$").get (by decide)

/-- The pattern `api\.example\.com`, compiled. -/
def apiHostAnywhere : Regexp := (Go.Compile "api\\.example\\.com").get (by decide)

/-- The pattern `^evil\.example\.com$`, compiled. -/
def evilHost : Regexp := (Go.Compile "^evil\\.example\\.com$").get (by decide)

/-- The pattern `/a`, compiled. -/
def slashA : Regexp := (Go.Compile "/a").get (by decide)

/-- The pattern `/b`, compiled. -/
def slashB : Regexp := (Go.Compile "/b").get (by decide)

/-- The pattern `\Q/a` (the literal text `/a`, quoted to the end of the pattern),
compiled. -/
def quotedSlashA : Regexp := (Go.Compile "\\Q/a").get (by decide)

/-- A tracker-domain classifier that knows one domain. -/
def isTracker (host : String) : Bool := host == "tracker.example.com"

/-- The pattern `\Qx` (the literal text `x`, quoted to the end of the pattern),
compiled. -/
def quotedX : Regexp := (Go.Compile "\\Qx").get (by decide)

/-- The pattern `(\\E)`: a group around an escaped backslash and the letter `E`.  Go
compiles it, and it matches the texts that contain a backslash followed by `E`; groups are
outside the fragment of `Go.parse`, so the compiled value is written out. -/
def groupBackslashE : Regexp :=
  { expr := "(\\\\E)",
    MatchString := fun s => Go.searchFrom [[.lit '\\', .lit 'E']] true s.toList }

/-- A predicate that rejects the Requests to the path `/health`. -/
def notHealth (r : HTTPRequest) : Bool :=
  match r.URL with
  | some u => u.Path != "/health"
  | none => true

/-- A predicate that rejects the Requests whose Host field is `tracker.example.com`. -/
def notTrackerHost (r : HTTPRequest) : Bool := r.Host != "tracker.example.com"

/-- Two stages in front of the recording consumer: `notHealth` wraps `notTrackerHost`. -/
def chain : genericRequestFilter
    (genericRequestFilter (List ParsedNetworkTraffic) (UUID × Int)) (UUID × Int) :=
  stageOf notHealth (stageOf notTrackerHost [])

/-- Events for the chain: a Request rejected by the outer stage, one rejected by the inner
stage, one accepted by both, another kind of event, and the three Responses. -/
def chainScenario : List ParsedNetworkTraffic :=
  [req 1 1 "svc.local" "/health", req 1 2 "tracker.example.com" "/pixel",
   req 1 3 "svc.local" "/api/users", tcpMeta, resp 1 1, resp 1 2, resp 1 3]

/-- The path denylist `^/health$` in front of the consumer whose every call fails. -/
def healthStageFailing : genericRequestFilter Unit (UUID × Int) :=
  NewHTTPPathFilterCollector Go.Compile [health] ()

/-- The path denylist `^/health$` in front of the failing consumer, with the identifier of
the pair (1, 1) already in its tracker. -/
def healthStageFailingWithEntry : genericRequestFilter Unit (UUID × Int) :=
  { healthStageFailing with filteredIDs := some {((1 : UUID), (1 : Int))} }

/-- Calls on a stage: a Request that is forwarded, `Close`, and a Response. -/
def someCalls : List Call :=
  [.process (req 1 2 "svc.local" "/api/users"), .close, .process (resp 1 1)]

/-- The events of the scenario that precede the Response with stream 1, sequence 1. -/
def scenario : List ParsedNetworkTraffic :=
  [req 1 1 "svc.local" "/health", req 1 2 "svc.local" "/api/users", resp 1 2]

end Example

/-! ## Basic facts about `Process` and `run` -/

section Stage

variable (impl : Trace.Collector σ) (ToWitnessID : UUID → Int → W)

theorem typeSwitch_request (fc : genericRequestFilter σ W) (t : ParsedNetworkTraffic)
    (c : HTTPRequest) (h : t.Content = .HTTPRequest c) :
    fc.typeSwitch ToWitnessID t =
      match fc.filterFunc with
      | none => some (true, fc.filteredIDs)
      | some f =>
        match f c with
        | none => none
        | some true => some (true, fc.filteredIDs)
        | some false => some (false, some (insert (ToWitnessID c.StreamID c.Seq) fc.ids)) := by
  simp only [genericRequestFilter.typeSwitch, h]

theorem typeSwitch_response (fc : genericRequestFilter σ W) (t : ParsedNetworkTraffic)
    (c : HTTPResponse) (h : t.Content = .HTTPResponse c) :
    fc.typeSwitch ToWitnessID t =
      if ToWitnessID c.StreamID c.Seq ∈ fc.ids then some (false, fc.filteredIDs)
      else some (true, fc.filteredIDs) := by
  simp only [genericRequestFilter.typeSwitch, h]

theorem typeSwitch_other (fc : genericRequestFilter σ W) (t : ParsedNetworkTraffic)
    (k : Nat) (p : String) (h : t.Content = .other k p) :
    fc.typeSwitch ToWitnessID t = some (true, fc.filteredIDs) := by
  simp only [genericRequestFilter.typeSwitch, h]

/-- Where the tracker after the type switch comes from: it is the old one, or the old one
with the identifier of the rejected Request of this call. -/
theorem typeSwitch_ids (fc : genericRequestFilter σ W) (t : ParsedNetworkTraffic)
    (b : Bool) (ids : Option (Finset W)) (h : fc.typeSwitch ToWitnessID t = some (b, ids)) :
    ids = fc.filteredIDs ∨
      ∃ c f, t.Content = .HTTPRequest c ∧ fc.filterFunc = some f ∧ f c = some false ∧
        b = false ∧ ids = some (insert (ToWitnessID c.StreamID c.Seq) fc.ids) := by
  cases hc : t.Content with
  | HTTPRequest c =>
    rw [typeSwitch_request ToWitnessID fc t c hc] at h
    cases hf : fc.filterFunc with
    | none => simp [hf] at h; exact Or.inl h.2.symm
    | some f =>
      cases hfc : f c with
      | none => simp [hf, hfc] at h
      | some v =>
        cases v with
        | true => simp [hf, hfc] at h; exact Or.inl h.2.symm
        | false =>
          simp [hf, hfc] at h
          exact Or.inr ⟨c, f, rfl, rfl, hfc, h.1, h.2.symm⟩
  | HTTPResponse c =>
    rw [typeSwitch_response ToWitnessID fc t c hc] at h
    split at h <;> simp at h <;> exact Or.inl h.2.symm
  | other k p =>
    rw [typeSwitch_other ToWitnessID fc t k p hc] at h
    simp at h; exact Or.inl h.2.symm

/-- The shape of a completed call of `Process`. -/
theorem Process_eq_some (fc : genericRequestFilter σ W) (t : ParsedNetworkTraffic)
    (o : Outcome σ W ParsedNetworkTraffic) (h : fc.Process impl ToWitnessID t = some o) :
    ∃ b ids, fc.typeSwitch ToWitnessID t = some (b, ids) ∧
      o.fc.filterFunc = fc.filterFunc ∧ o.fc.filteredIDs = ids ∧
      (b = true → o.calls = [t] ∧ o.ret = (impl.Process fc.Collector t).2 ∧
        o.fc.Collector = (impl.Process fc.Collector t).1) ∧
      (b = false → o.calls = [] ∧ o.ret = none ∧ o.fc.Collector = fc.Collector) := by
  unfold genericRequestFilter.Process at h
  cases hsw : fc.typeSwitch ToWitnessID t with
  | none => simp [hsw] at h
  | some r =>
    obtain ⟨b, ids⟩ := r
    cases b with
    | true => simp [hsw] at h; subst h; exact ⟨true, ids, rfl, rfl, rfl, by simp, by simp⟩
    | false => simp [hsw] at h; subst h; exact ⟨false, ids, rfl, rfl, rfl, by simp, by simp⟩

theorem Process_filterFunc (fc : genericRequestFilter σ W) (t : ParsedNetworkTraffic)
    (o : Outcome σ W ParsedNetworkTraffic) (h : fc.Process impl ToWitnessID t = some o) :
    o.fc.filterFunc = fc.filterFunc := by
  obtain ⟨b, ids, -, hf, -⟩ := Process_eq_some impl ToWitnessID fc t o h
  exact hf

/-- One call of `Process` never removes an identifier from the tracker, and what it adds
is the identifier of the Request of this call, rejected by the predicate. -/
theorem Process_ids (fc : genericRequestFilter σ W) (t : ParsedNetworkTraffic)
    (o : Outcome σ W ParsedNetworkTraffic) (h : fc.Process impl ToWitnessID t = some o) :
    fc.ids ⊆ o.fc.ids ∧
      ∀ w ∈ o.fc.ids, w ∈ fc.ids ∨
        ∃ c f, t.Content = .HTTPRequest c ∧ fc.filterFunc = some f ∧ f c = some false ∧
          ToWitnessID c.StreamID c.Seq = w := by
  obtain ⟨b, ids, hsw, -, hids, -⟩ := Process_eq_some impl ToWitnessID fc t o h
  rcases typeSwitch_ids ToWitnessID fc t b ids hsw with h1 | ⟨c, f, hc, hf, hfc, -, h1⟩
  · have : o.fc.ids = fc.ids := by simp [genericRequestFilter.ids, hids, h1]
    rw [this]
    exact ⟨Finset.Subset.refl _, fun w hw => Or.inl hw⟩
  · have : o.fc.ids = insert (ToWitnessID c.StreamID c.Seq) fc.ids := by
      simp [genericRequestFilter.ids, hids, h1]
    rw [this]
    refine ⟨Finset.subset_insert _ _, fun w hw => ?_⟩
    rcases Finset.mem_insert.mp hw with rfl | hw
    · exact Or.inr ⟨c, f, hc, hf, hfc, rfl⟩
    · exact Or.inl hw

theorem run_cons (fc : genericRequestFilter σ W) (t : ParsedNetworkTraffic)
    (ts : List ParsedNetworkTraffic) (fc' : genericRequestFilter σ W)
    (os : List (Outcome σ W ParsedNetworkTraffic))
    (h : fc.run impl ToWitnessID (t :: ts) = some (fc', os)) :
    ∃ o os', fc.Process impl ToWitnessID t = some o ∧
      o.fc.run impl ToWitnessID ts = some (fc', os') ∧ os = o :: os' := by
  simp only [genericRequestFilter.run] at h
  cases hp : fc.Process impl ToWitnessID t with
  | none => simp [hp] at h
  | some o =>
    cases hr : o.fc.run impl ToWitnessID ts with
    | none => simp [hp, hr] at h
    | some r =>
      obtain ⟨fc2, os2⟩ := r
      simp [hp, hr] at h
      exact ⟨o, os2, rfl, by rw [hr, h.1], h.2.symm⟩

/-- A run keeps the predicate, never removes an identifier from the tracker, and adds only
identifiers of Requests of the run that the predicate rejected. -/
theorem run_ids (evs : List ParsedNetworkTraffic) :
    ∀ (fc fc' : genericRequestFilter σ W) (os : List (Outcome σ W ParsedNetworkTraffic)),
      fc.run impl ToWitnessID evs = some (fc', os) →
      fc'.filterFunc = fc.filterFunc ∧ fc.ids ⊆ fc'.ids ∧
        ∀ w ∈ fc'.ids, w ∈ fc.ids ∨
          ∃ t c f, t ∈ evs ∧ t.Content = .HTTPRequest c ∧ fc.filterFunc = some f ∧
            f c = some false ∧ ToWitnessID c.StreamID c.Seq = w := by
  induction evs with
  | nil =>
    intro fc fc' os h
    simp [genericRequestFilter.run] at h
    rw [← h.1]
    exact ⟨rfl, Finset.Subset.refl _, fun w hw => Or.inl hw⟩
  | cons t ts ih =>
    intro fc fc' os h
    obtain ⟨o, os', hp, hr, -⟩ := run_cons impl ToWitnessID fc t ts fc' os h
    obtain ⟨hf2, hsub2, hnew2⟩ := ih o.fc fc' os' hr
    have hf1 := Process_filterFunc impl ToWitnessID fc t o hp
    obtain ⟨hsub1, hnew1⟩ := Process_ids impl ToWitnessID fc t o hp
    refine ⟨hf2.trans hf1, hsub1.trans hsub2, fun w hw => ?_⟩
    rcases hnew2 w hw with h2 | ⟨t', c, f, ht', hc, hf, hfc, hw'⟩
    · rcases hnew1 w h2 with h1 | ⟨c, f, hc, hf, hfc, hw'⟩
      · exact Or.inl h1
      · exact Or.inr ⟨t, c, f, List.mem_cons_self _ _, hc, hf, hfc, hw'⟩
    · exact Or.inr ⟨t', c, f, List.mem_cons_of_mem _ ht', hc, hf1 ▸ hf, hfc, hw'⟩

/-- A Request that the predicate rejects is processed and dropped, and its identifier is
in the tracker afterwards. -/
theorem Process_rejected (fc : genericRequestFilter σ W) (t : ParsedNetworkTraffic)
    (c : HTTPRequest) (f : HTTPRequest → Option Bool) (hc : t.Content = .HTTPRequest c)
    (hf : fc.filterFunc = some f) (hfc : f c = some false) :
    fc.Process impl ToWitnessID t =
      some { fc := { fc with
                     filteredIDs := some (insert (ToWitnessID c.StreamID c.Seq) fc.ids) },
             calls := [], ret := none } := by
  simp [genericRequestFilter.Process, typeSwitch_request ToWitnessID fc t c hc, hf, hfc]

/-- A Response whose identifier is in the tracker is processed and dropped. -/
theorem Process_response_mem (fc : genericRequestFilter σ W) (t : ParsedNetworkTraffic)
    (c : HTTPResponse) (hc : t.Content = .HTTPResponse c)
    (hmem : ToWitnessID c.StreamID c.Seq ∈ fc.ids) :
    fc.Process impl ToWitnessID t = some { fc := fc, calls := [], ret := none } := by
  simp [genericRequestFilter.Process, typeSwitch_response ToWitnessID fc t c hc, hmem]

/-- A Response whose identifier is not in the tracker is processed and forwarded. -/
theorem Process_response_not_mem (fc : genericRequestFilter σ W) (t : ParsedNetworkTraffic)
    (c : HTTPResponse) (hc : t.Content = .HTTPResponse c)
    (hmem : ToWitnessID c.StreamID c.Seq ∉ fc.ids) :
    fc.Process impl ToWitnessID t =
      some { fc := { fc with Collector := (impl.Process fc.Collector t).1 },
             calls := [t], ret := (impl.Process fc.Collector t).2 } := by
  simp [genericRequestFilter.Process, typeSwitch_response ToWitnessID fc t c hc, hmem]

/-! ## The claims about the stage -/

/-- After a run that contains a Request rejected by the predicate, the witness identifier
of that Request is in the tracker. -/
theorem run_rejected_mem (f : HTTPRequest → Option Bool) (t : ParsedNetworkTraffic)
    (c : HTTPRequest) (evs2 : List ParsedNetworkTraffic) (hc : t.Content = .HTTPRequest c)
    (hfc : f c = some false) (evs1 : List ParsedNetworkTraffic) :
    ∀ (fc : genericRequestFilter σ W)
      (r : genericRequestFilter σ W × List (Outcome σ W ParsedNetworkTraffic)),
      fc.filterFunc = some f → fc.run impl ToWitnessID (evs1 ++ t :: evs2) = some r →
      ToWitnessID c.StreamID c.Seq ∈ r.1.ids := by
  induction evs1 with
  | nil =>
    intro fc r hf hrun
    obtain ⟨fc', os⟩ := r
    obtain ⟨o, os', hp, hr, -⟩ := run_cons impl ToWitnessID fc t evs2 fc' os hrun
    rw [Process_rejected impl ToWitnessID fc t c f hc hf hfc] at hp
    obtain ⟨-, hsub, -⟩ := run_ids impl ToWitnessID evs2 o.fc fc' os' hr
    apply hsub
    rw [← Option.some.inj hp]
    simp [genericRequestFilter.ids]
  | cons e evs1 ih =>
    intro fc r hf hrun
    obtain ⟨fc', os⟩ := r
    obtain ⟨o, os', hp, hr, -⟩ :=
      run_cons impl ToWitnessID fc e (evs1 ++ t :: evs2) fc' os hrun
    have hf' := Process_filterFunc impl ToWitnessID fc e o hp
    exact ih o.fc (fc', os') (hf'.trans hf) hr

/-- C1 (pairing correctness): in any sequence of events processed by a stage (any
predicate, any starting tracker), once a Request with (S, N) has been rejected by the
predicate, a Response with the same (S, N) processed after any further events is processed
without being forwarded: no call of the wrapped consumer, no error, stage unchanged. -/
theorem pairing_correctness (fc : genericRequestFilter σ W) (f : HTTPRequest → Option Bool)
    (evs1 evs2 : List ParsedNetworkTraffic) (t t' : ParsedNetworkTraffic) (c : HTTPRequest)
    (c' : HTTPResponse)
    (r : genericRequestFilter σ W × List (Outcome σ W ParsedNetworkTraffic))
    (hf : fc.filterFunc = some f) (hc : t.Content = .HTTPRequest c)
    (hfc : f c = some false)
    (hrun : fc.run impl ToWitnessID (evs1 ++ t :: evs2) = some r)
    (hc' : t'.Content = .HTTPResponse c')
    (hS : c'.StreamID = c.StreamID) (hN : c'.Seq = c.Seq) :
    r.1.Process impl ToWitnessID t' = some { fc := r.1, calls := [], ret := none } := by
  have hmem := run_rejected_mem impl ToWitnessID f t c evs2 hc hfc evs1 fc r hf hrun
  rw [← hS, ← hN] at hmem
  exact Process_response_mem impl ToWitnessID r.1 t' c' hc' hmem

/-- C2 (non-interference): after a run that started with an empty tracker, a Response is
dropped only if a Request of the run with the same witness identifier was rejected by the
predicate; when the witness identifier is injective, that Request has the same stream
identifier and sequence number as the Response. -/
theorem non_interference (fc0 : genericRequestFilter σ W) (evs : List ParsedNetworkTraffic)
    (r : genericRequestFilter σ W × List (Outcome σ W ParsedNetworkTraffic))
    (t : ParsedNetworkTraffic) (c : HTTPResponse) (out : Outcome σ W ParsedNetworkTraffic)
    (hempty : fc0.ids = ∅) (hrun : fc0.run impl ToWitnessID evs = some r)
    (hc : t.Content = .HTTPResponse c) (hproc : r.1.Process impl ToWitnessID t = some out)
    (hdrop : out.calls = []) :
    (∃ t0 c0 f, t0 ∈ evs ∧ t0.Content = .HTTPRequest c0 ∧ fc0.filterFunc = some f ∧
        f c0 = some false ∧
        ToWitnessID c0.StreamID c0.Seq = ToWitnessID c.StreamID c.Seq) ∧
      (Function.Injective (fun p : UUID × Int => ToWitnessID p.1 p.2) →
        ∃ t0 c0 f, t0 ∈ evs ∧ t0.Content = .HTTPRequest c0 ∧ fc0.filterFunc = some f ∧
          f c0 = some false ∧ c0.StreamID = c.StreamID ∧ c0.Seq = c.Seq) := by
  obtain ⟨fcN, os⟩ := r
  obtain ⟨-, -, hnew⟩ := run_ids impl ToWitnessID evs fc0 fcN os hrun
  have hmem : ToWitnessID c.StreamID c.Seq ∈ fcN.ids := by
    by_contra hn
    have := Process_response_not_mem impl ToWitnessID fcN t c hc hn
    simp only at hproc
    rw [this] at hproc
    simp at hproc
    rw [← hproc] at hdrop
    simp at hdrop
  have key : ∃ t0 c0 f, t0 ∈ evs ∧ t0.Content = .HTTPRequest c0 ∧
      fc0.filterFunc = some f ∧ f c0 = some false ∧
      ToWitnessID c0.StreamID c0.Seq = ToWitnessID c.StreamID c.Seq := by
    rcases hnew _ hmem with h0 | h1
    · rw [hempty] at h0; simp at h0
    · exact h1
  refine ⟨key, fun hinj => ?_⟩
  obtain ⟨t0, c0, f, ht0, hc0, hf, hfc, hw⟩ := key
  have hp := @hinj (c0.StreamID, c0.Seq) (c.StreamID, c.Seq) hw
  simp only [Prod.mk.injEq] at hp
  exact ⟨t0, c0, f, ht0, hc0, hf, hfc, hp.1, hp.2⟩

/-- C3 (request handling): a Request is forwarded unchanged, once, when the predicate is
absent or returns true, with the tracker untouched; when the predicate returns false the
consumer is not called, no error is returned and the tracker becomes the old one (the empty
set if it was nil) with the witness identifier of the Request inserted; and a completed
call forwarded the Request exactly when the predicate was absent or returned true. -/
theorem request_handling (fc : genericRequestFilter σ W) (t : ParsedNetworkTraffic)
    (c : HTTPRequest) (hc : t.Content = .HTTPRequest c) :
    ((fc.filterFunc = none ∨ ∃ f, fc.filterFunc = some f ∧ f c = some true) →
        fc.Process impl ToWitnessID t =
          some { fc := { fc with Collector := (impl.Process fc.Collector t).1 },
                 calls := [t], ret := (impl.Process fc.Collector t).2 }) ∧
      (∀ f, fc.filterFunc = some f → f c = some false →
        fc.Process impl ToWitnessID t =
          some { fc := { fc with
                         filteredIDs := some (insert (ToWitnessID c.StreamID c.Seq)
                           (fc.filteredIDs.getD ∅)) },
                 calls := [], ret := none }) ∧
      (∀ o, fc.Process impl ToWitnessID t = some o →
        (o.calls = [t] ↔
          (fc.filterFunc = none ∨ ∃ f, fc.filterFunc = some f ∧ f c = some true))) := by
  refine ⟨?_, ?_, ?_⟩
  · rintro (hf | ⟨f, hf, hfc⟩)
    · simp [genericRequestFilter.Process, typeSwitch_request ToWitnessID fc t c hc, hf]
    · simp [genericRequestFilter.Process, typeSwitch_request ToWitnessID fc t c hc, hf, hfc]
  · intro f hf hfc
    exact Process_rejected impl ToWitnessID fc t c f hc hf hfc
  · intro o ho
    cases hf : fc.filterFunc with
    | none =>
      simp [genericRequestFilter.Process, typeSwitch_request ToWitnessID fc t c hc, hf] at ho
      simp [← ho]
    | some f =>
      cases hfc : f c with
      | none =>
        simp [genericRequestFilter.Process, typeSwitch_request ToWitnessID fc t c hc, hf,
          hfc] at ho
      | some v =>
        cases v with
        | true =>
          simp [genericRequestFilter.Process, typeSwitch_request ToWitnessID fc t c hc, hf,
            hfc] at ho
          simp [← ho, hfc]
        | false =>
          simp [genericRequestFilter.Process, typeSwitch_request ToWitnessID fc t c hc, hf,
            hfc] at ho
          simp [← ho, hfc]

/-- C4 (pass-through): an event whose content is neither an HTTP Request nor an HTTP
Response is forwarded unchanged to the wrapped consumer exactly once, the result of the
consumer is returned, and the tracker (nil or not) and the predicate stay as they were. -/
theorem pass_through (fc : genericRequestFilter σ W) (t : ParsedNetworkTraffic)
    (hreq : ∀ c, t.Content ≠ .HTTPRequest c) (hresp : ∀ c, t.Content ≠ .HTTPResponse c) :
    fc.Process impl ToWitnessID t =
      some { fc := { Collector := (impl.Process fc.Collector t).1,
                     filterFunc := fc.filterFunc, filteredIDs := fc.filteredIDs },
             calls := [t], ret := (impl.Process fc.Collector t).2 } := by
  cases hc : t.Content with
  | HTTPRequest c => exact absurd hc (hreq c)
  | HTTPResponse c => exact absurd hc (hresp c)
  | other k p =>
    simp [genericRequestFilter.Process, typeSwitch_other ToWitnessID fc t k p hc]

end Stage

/-! ### Witnesses: the scenario of the specification -/

/-- Witness of C1 on the scenario of the specification: the Request (1, 1) to `/health` is
rejected by the path denylist `^/health$`, and after the whole scenario the Response
(1, 1) is processed and not forwarded. -/
theorem pairing_correctness_witness :
    pathFilterFunc Go.Compile [Example.health] (Example.httpReq 1 1 "svc.local" "/health") =
        some false ∧
      (((Example.healthStage.run Example.recorder Example.pairID Example.scenario).get
        (by decide)).1.Process Example.recorder Example.pairID (Example.resp 1 1)).map
          (fun o => (o.calls, o.ret)) = some ([], none) :=
  ⟨by decide,
   congrArg (Option.map (fun o => (o.calls, o.ret)))
    (pairing_correctness Example.recorder Example.pairID Example.healthStage
      (pathFilterFunc Go.Compile [Example.health]) []
      [Example.req 1 2 "svc.local" "/api/users", Example.resp 1 2]
      (Example.req 1 1 "svc.local" "/health") (Example.resp 1 1)
      (Example.httpReq 1 1 "svc.local" "/health") (Example.httpResp 1 1)
      ((Example.healthStage.run Example.recorder Example.pairID Example.scenario).get
        (by decide))
      rfl rfl (by decide) (Option.some_get _).symm rfl rfl rfl)⟩

/-- Witness of C2 on the scenario of the specification: the Response (1, 1) is dropped
after the scenario, and the rejected Request found has stream 1 and sequence 1. -/
theorem non_interference_witness :
    ∃ t0 c0 f, t0 ∈ Example.scenario ∧ t0.Content = .HTTPRequest c0 ∧
      Example.healthStage.filterFunc = some f ∧ f c0 = some false ∧
      c0.StreamID = 1 ∧ c0.Seq = 1 :=
  (non_interference Example.recorder Example.pairID Example.healthStage Example.scenario
    ((Example.healthStage.run Example.recorder Example.pairID Example.scenario).get
      (by decide))
    (Example.resp 1 1) (Example.httpResp 1 1)
    ((((Example.healthStage.run Example.recorder Example.pairID Example.scenario).get
      (by decide)).1.Process Example.recorder Example.pairID (Example.resp 1 1)).get
      (by decide))
    (by decide) (Option.some_get _).symm rfl (Option.some_get _).symm (by decide)).2
    (fun p q h => by
      simp only [Example.pairID] at h
      exact Prod.ext (congrArg Prod.fst h) (congrArg Prod.snd h))

/-- Witness of C3: the rejected Request (1, 1) of the scenario is dropped and recorded. -/
theorem request_handling_witness :
    ∃ o, Example.healthStage.Process Example.recorder Example.pairID
        (Example.req 1 1 "svc.local" "/health") = some o ∧
      o.calls = [] ∧ o.ret = none ∧ o.fc.filteredIDs = some {((1 : UUID), (1 : Int))} :=
  ⟨_, (request_handling Example.recorder Example.pairID Example.healthStage
        (Example.req 1 1 "svc.local" "/health") (Example.httpReq 1 1 "svc.local" "/health")
        rfl).2.1 (pathFilterFunc Go.Compile [Example.health]) rfl (by decide),
    rfl, rfl, by decide⟩

/-- Witness of C4: an event of another kind passes the path denylist of the scenario. -/
theorem pass_through_witness :
    Example.healthStage.Process Example.recorder Example.pairID Example.tcpMeta =
      some { fc := { Collector := [Example.tcpMeta],
                     filterFunc := Example.healthStage.filterFunc, filteredIDs := none },
             calls := [Example.tcpMeta], ret := none } :=
  pass_through Example.recorder Example.pairID Example.healthStage Example.tcpMeta
    (fun c h => by simp [Example.tcpMeta] at h) (fun c h => by simp [Example.tcpMeta] at h)

/-! ## The predicates on a Request without a URL -/

section Predicates

variable (impl : Trace.Collector σ) (ToWitnessID : UUID → Int → W)
variable (Compile : String → Option Regexp) (IsTrackerDomain : String → Bool)

/-- A completed call of `Process` returns the error of the wrapped consumer when it
forwarded the event, and no error when it dropped it. -/
theorem Process_ret (fc : genericRequestFilter σ W) (t : ParsedNetworkTraffic)
    (o : Outcome σ W ParsedNetworkTraffic) (h : fc.Process impl ToWitnessID t = some o) :
    (o.calls = [t] ∧ o.ret = (impl.Process fc.Collector t).2) ∨
      (o.calls = [] ∧ o.ret = none) := by
  obtain ⟨b, ids, -, -, -, ht, hf⟩ := Process_eq_some impl ToWitnessID fc t o h
  cases b with
  | true => exact Or.inl ⟨(ht rfl).1, (ht rfl).2.1⟩
  | false => exact Or.inr ⟨(hf rfl).1, (hf rfl).2.1⟩

/-- The call of `Process` aborts exactly on a Request on which the predicate aborts. -/
theorem Process_eq_none_iff (fc : genericRequestFilter σ W) (t : ParsedNetworkTraffic) :
    fc.Process impl ToWitnessID t = none ↔
      ∃ c f, t.Content = .HTTPRequest c ∧ fc.filterFunc = some f ∧ f c = none := by
  unfold genericRequestFilter.Process
  cases hc : t.Content with
  | HTTPRequest c =>
    rw [typeSwitch_request ToWitnessID fc t c hc]
    cases hf : fc.filterFunc with
    | none => simp
    | some f =>
      cases hfc : f c with
      | none => simp [hfc]
      | some v => cases v <;> simp [hfc]
  | HTTPResponse c =>
    rw [typeSwitch_response ToWitnessID fc t c hc]
    by_cases hm : ToWitnessID c.StreamID c.Seq ∈ fc.ids <;> simp [hm]
  | other k p =>
    rw [typeSwitch_other ToWitnessID fc t k p hc]
    simp

/-- The path allowlist rejects a Request without a URL, whatever the patterns. -/
theorem pathAllowlistFunc_no_url (matchers : List Regexp) (r : HTTPRequest)
    (h : r.URL = none) : pathAllowlistFunc Compile matchers r = some false := by
  simp [pathAllowlistFunc, h]

/-- The host allowlist aborts on a Request without a URL, whatever the patterns. -/
theorem hostAllowlistFunc_no_url (matchers : List Regexp) (r : HTTPRequest)
    (h : r.URL = none) : hostAllowlistFunc Compile matchers r = none := by
  simp [hostAllowlistFunc, h]

/-- The host allowlist tests the path of the URL; the Host field and the host of the URL
play no part. -/
theorem hostAllowlistFunc_url (matchers : List Regexp) (r : HTTPRequest) (u : URL)
    (h : r.URL = some u) :
    hostAllowlistFunc Compile matchers r =
      callMatchString (compileRegex Compile matchers) u.Path := by
  simp [hostAllowlistFunc, h]

/-- C7, as amended (denylists and a Request without a URL): the predicates of the path
denylist and of the tracker denylist are true and the stages built by their factories
forward the Request; the host denylist does not look at the URL: when the composite
pattern compiles, its predicate is true exactly when the pattern does not match the Host
field of the Request. -/
theorem denylist_no_url (matchers : List Regexp) (col : σ) (t : ParsedNetworkTraffic)
    (r : HTTPRequest) (ht : t.Content = .HTTPRequest r) (hurl : r.URL = none) :
    pathFilterFunc Compile matchers r = some true ∧
      trackerFilterFunc IsTrackerDomain r = some true ∧
      (NewHTTPPathFilterCollector Compile matchers col :
          genericRequestFilter σ W).Process impl ToWitnessID t =
        some { fc := NewHTTPPathFilterCollector Compile matchers (impl.Process col t).1,
               calls := [t], ret := (impl.Process col t).2 } ∧
      (New3PTrackerFilterCollector IsTrackerDomain col :
          genericRequestFilter σ W).Process impl ToWitnessID t =
        some { fc := New3PTrackerFilterCollector IsTrackerDomain (impl.Process col t).1,
               calls := [t], ret := (impl.Process col t).2 } ∧
      (∀ re, compileRegex Compile matchers = some re →
        hostFilterFunc Compile matchers r = some (!re.MatchString r.Host)) := by
  have h1 : pathFilterFunc Compile matchers r = some true := by simp [pathFilterFunc, hurl]
  have h2 : trackerFilterFunc IsTrackerDomain r = some true := by
    simp [trackerFilterFunc, hurl]
  refine ⟨h1, h2, ?_, ?_, ?_⟩
  · simp [genericRequestFilter.Process, NewHTTPPathFilterCollector,
      typeSwitch_request ToWitnessID _ t r ht, h1]
  · simp [genericRequestFilter.Process, New3PTrackerFilterCollector,
      typeSwitch_request ToWitnessID _ t r ht, h2]
  · intro re hre
    simp [hostFilterFunc, hre, callMatchString]

end Predicates

/-! ## Closed evaluations of the factory-built filters -/

/-- C5 (error propagation, the failing input): the stage built by
`NewHTTPHostAllowlistCollector` aborts with a run-time panic on a Request whose URL is
absent, a failure of the stage itself; the four other factory-built stages complete the
call on the same Request. -/
theorem host_allowlist_stage_aborts_without_url :
    (NewHTTPHostAllowlistCollector Go.Compile [Example.apiHost] [] :
        genericRequestFilter (List ParsedNetworkTraffic) (UUID × Int)).Process
        Example.recorder Example.pairID (Example.reqNoURL 1 1 "api.example.com") = none ∧
      ((NewHTTPPathAllowlistCollector Go.Compile [Example.apiHost] [] :
        genericRequestFilter (List ParsedNetworkTraffic) (UUID × Int)).Process
        Example.recorder Example.pairID (Example.reqNoURL 1 1 "api.example.com")).isSome ∧
      ((NewHTTPPathFilterCollector Go.Compile [Example.apiHost] [] :
        genericRequestFilter (List ParsedNetworkTraffic) (UUID × Int)).Process
        Example.recorder Example.pairID (Example.reqNoURL 1 1 "api.example.com")).isSome ∧
      ((NewHTTPHostFilterCollector Go.Compile [Example.apiHost] [] :
        genericRequestFilter (List ParsedNetworkTraffic) (UUID × Int)).Process
        Example.recorder Example.pairID (Example.reqNoURL 1 1 "api.example.com")).isSome ∧
      ((New3PTrackerFilterCollector Example.isTracker [] :
        genericRequestFilter (List ParsedNetworkTraffic) (UUID × Int)).Process
        Example.recorder Example.pairID (Example.reqNoURL 1 1 "api.example.com")).isSome :=
  ⟨rfl, by decide, by decide, by decide, by decide⟩

/-- C6 (allowlist fail-closed, the failing input): on a Request whose URL is absent the
predicate of the host allowlist does not evaluate to false, it aborts; the predicate of the
path allowlist evaluates to false and its stage drops the Request and records the witness
identifier. -/
theorem host_allowlist_predicate_aborts_without_url :
    hostAllowlistFunc Go.Compile [Example.apiHost]
        (Example.httpReqNoURL 1 1 "api.example.com") = none ∧
      pathAllowlistFunc Go.Compile [Example.apiHost]
        (Example.httpReqNoURL 1 1 "api.example.com") = some false ∧
      ((NewHTTPPathAllowlistCollector Go.Compile [Example.apiHost] [] :
        genericRequestFilter (List ParsedNetworkTraffic) (UUID × Int)).Process
        Example.recorder Example.pairID (Example.reqNoURL 1 1 "api.example.com")).map
          (fun o => (o.calls, o.fc.filteredIDs)) =
        some ([], some {((1 : UUID), (1 : Int))}) := by
  decide

/-- C7 (counterexample): the host denylist with pattern `^evil\.example\.com$` rejects a
Request whose URL is absent and whose Host field is `evil.example.com`, and its stage does
not forward it. -/
theorem host_denylist_rejects_without_url :
    (Example.httpReqNoURL 1 1 "evil.example.com").URL = none ∧
      hostFilterFunc Go.Compile [Example.evilHost]
        (Example.httpReqNoURL 1 1 "evil.example.com") = some false ∧
      ((NewHTTPHostFilterCollector Go.Compile [Example.evilHost] [] :
        genericRequestFilter (List ParsedNetworkTraffic) (UUID × Int)).Process
        Example.recorder Example.pairID (Example.reqNoURL 1 1 "evil.example.com")).map
          (fun o => o.calls) = some [] := by
  decide

/-- Witness of the amended C7 on a Request without a URL whose Host field is
`evil.example.com`. -/
theorem denylist_no_url_witness :
    pathFilterFunc Go.Compile [Example.evilHost]
        (Example.httpReqNoURL 1 1 "evil.example.com") = some true ∧
      trackerFilterFunc Example.isTracker
        (Example.httpReqNoURL 1 1 "evil.example.com") = some true ∧
      hostFilterFunc Go.Compile [Example.evilHost]
        (Example.httpReqNoURL 1 1 "evil.example.com") =
          some (!Example.evilHost.MatchString "evil.example.com") :=
  have h := denylist_no_url (W := UUID × Int) Example.recorder Example.pairID Go.Compile
    Example.isTracker [Example.evilHost] [] (Example.reqNoURL 1 1 "evil.example.com")
    (Example.httpReqNoURL 1 1 "evil.example.com") rfl rfl
  ⟨h.1, h.2.1, h.2.2.2.2 Example.evilHost rfl⟩

/-- C8 (host allowlist, the failing input): with pattern `^api\.example\.com$` the host
allowlist rejects a Request to host `api.example.com` (path `/v1/users`), a host the
pattern matches; with pattern `api\.example\.com` it accepts a Request to host
`tracker.example.com`, a host the pattern does not match, because the path of its URL
contains the text. -/
theorem host_allowlist_tests_the_path :
    Example.apiHost.MatchString "api.example.com" = true ∧
      hostAllowlistFunc Go.Compile [Example.apiHost]
        (Example.httpReq 1 1 "api.example.com" "/v1/users") = some false ∧
      Example.apiHostAnywhere.MatchString "tracker.example.com" = false ∧
      hostAllowlistFunc Go.Compile [Example.apiHostAnywhere]
        (Example.httpReq 1 2 "tracker.example.com" "/r/api.example.com") = some true := by
  decide

/-- C9 (empty pattern collection, the failing input): for the empty list `compileRegex`
compiles the empty expression, whose matcher matches every string; the path denylist built
from the empty list rejects a Request with a URL and the path allowlist accepts it. -/
theorem empty_patterns_match_everything :
    (∃ re, compileRegex Go.Compile [] = some re ∧ re.expr = "" ∧
        ∀ s, re.MatchString s = true) ∧
      pathFilterFunc Go.Compile [] (Example.httpReq 1 1 "svc.local" "/api/users") =
        some false ∧
      pathAllowlistFunc Go.Compile [] (Example.httpReq 1 1 "svc.local" "/api/users") =
        some true := by
  refine ⟨⟨_, rfl, rfl, fun s => ?_⟩, by decide, by decide⟩
  show Go.searchFrom [[]] true s.toList = true
  cases s.toList <;> simp [Go.searchFrom, Go.matchItems]

/-- C10 (composite pattern, the failing input): for the patterns `\Q/a` and `/b`, which
match `/a` and `/b`, the joined expression is `\Q/a|/b`; it matches neither `/a` nor `/b`
(only texts containing `/a|/b`), so the path denylist built from the two patterns accepts
Requests to `/a` and to `/b`.  With the patterns `/a` and `/b` the denylist rejects `/a`
and `/b` and accepts `/c`. -/
theorem joined_patterns_are_not_the_alternation :
    Example.quotedSlashA.MatchString "/a" = true ∧
      Example.slashB.MatchString "/b" = true ∧
      (compileRegex Go.Compile [Example.quotedSlashA, Example.slashB]).map
        (fun re => (re.expr, re.MatchString "/a", re.MatchString "/b",
          re.MatchString "x/a|/by")) = some ("\\Q/a|/b", false, false, true) ∧
      pathFilterFunc Go.Compile [Example.quotedSlashA, Example.slashB]
        (Example.httpReq 1 1 "svc.local" "/a") = some true ∧
      pathFilterFunc Go.Compile [Example.quotedSlashA, Example.slashB]
        (Example.httpReq 1 2 "svc.local" "/b") = some true ∧
      pathFilterFunc Go.Compile [Example.slashA, Example.slashB]
        (Example.httpReq 1 3 "svc.local" "/a") = some false ∧
      pathFilterFunc Go.Compile [Example.slashA, Example.slashB]
        (Example.httpReq 1 4 "svc.local" "/b") = some false ∧
      pathFilterFunc Go.Compile [Example.slashA, Example.slashB]
        (Example.httpReq 1 5 "svc.local" "/c") = some true := by
  decide

/-! ## A joined expression that does not compile -/

section CompileFailure

variable (Compile : String → Option Regexp)

/-- When the joined expression does not compile, every predicate that reaches the call of
`MatchString` aborts: the path filters on a Request with a URL, the host denylist on
every Request. -/
theorem predicates_of_failed_compile (matchers : List Regexp)
    (h : compileRegex Compile matchers = none) (r : HTTPRequest) :
    hostFilterFunc Compile matchers r = none ∧
      ∀ u, r.URL = some u →
        pathFilterFunc Compile matchers r = none ∧
          pathAllowlistFunc Compile matchers r = none ∧
          hostAllowlistFunc Compile matchers r = none := by
  refine ⟨by simp [hostFilterFunc, h, callMatchString], fun u hu => ?_⟩
  simp [pathFilterFunc, pathAllowlistFunc, hostAllowlistFunc, hu, h, callMatchString]

end CompileFailure

/-- C11 (compilation failure, the failing input): the patterns `\Qx` and `(\\E)` are
joined to `\Qx|(\\E)`; the quotation opened by the first pattern ends at the `\E` of
the second, the `)` that follows closes no group, and the expression is rejected.
`compileRegex` then returns the nil pointer, and the predicates of the path denylist, the
path allowlist and the host denylist abort on a Request with a URL instead of returning a
boolean, and so does `Process` of the path-denylist stage. -/
theorem failed_compilation_aborts_the_predicates :
    Example.quotedX.MatchString "x" = true ∧
      String.intercalate "|" ([Example.quotedX, Example.groupBackslashE].map (fun r => r.expr))
        = "\\Qx|(\\\\E)" ∧
      Go.parse false "\\Qx|(\\\\E)".toList [] [] = .error .invalid ∧
      (compileRegex Go.Compile [Example.quotedX, Example.groupBackslashE]).isNone = true ∧
      pathFilterFunc Go.Compile [Example.quotedX, Example.groupBackslashE]
        (Example.httpReq 1 1 "svc.local" "/api/users") = none ∧
      pathAllowlistFunc Go.Compile [Example.quotedX, Example.groupBackslashE]
        (Example.httpReq 1 1 "svc.local" "/api/users") = none ∧
      hostFilterFunc Go.Compile [Example.quotedX, Example.groupBackslashE]
        (Example.httpReq 1 1 "svc.local" "/api/users") = none ∧
      (NewHTTPPathFilterCollector Go.Compile [Example.quotedX, Example.groupBackslashE] [] :
        genericRequestFilter (List ParsedNetworkTraffic) (UUID × Int)).Process
        Example.recorder Example.pairID (Example.req 1 1 "svc.local" "/api/users") = none :=
  ⟨by decide, by decide, rfl, by decide, by decide, by decide, by decide, rfl⟩

/-! ## The tracker denylist, `Close`, and the two path filters -/

/-- C15 (tracker denylist): the predicate always returns; it rejects a Request exactly
when the URL is present and `IsTrackerDomain` is true on the host of the URL, accepts it
otherwise, and two Requests with the same URL host (or both without a URL) get the same
decision whatever their other fields. -/
theorem tracker_denylist (IsTrackerDomain : String → Bool) (r : HTTPRequest) :
    (trackerFilterFunc IsTrackerDomain r = some false ↔
        ∃ u, r.URL = some u ∧ IsTrackerDomain u.Host = true) ∧
      (trackerFilterFunc IsTrackerDomain r = some true ↔
        ¬ ∃ u, r.URL = some u ∧ IsTrackerDomain u.Host = true) ∧
      (∀ r' : HTTPRequest, r'.URL.map (fun u => u.Host) = r.URL.map (fun u => u.Host) →
        trackerFilterFunc IsTrackerDomain r' = trackerFilterFunc IsTrackerDomain r) := by
  refine ⟨?_, ?_, ?_⟩
  · cases hu : r.URL with
    | none => simp [trackerFilterFunc, hu]
    | some u => simp [trackerFilterFunc, hu]
  · cases hu : r.URL with
    | none => simp [trackerFilterFunc, hu]
    | some u => simp [trackerFilterFunc, hu]
  · intro r' h
    cases hu : r.URL with
    | none =>
      cases hu' : r'.URL with
      | none => simp [trackerFilterFunc, hu, hu']
      | some u' => simp [hu, hu'] at h
    | some u =>
      cases hu' : r'.URL with
      | none => simp [hu, hu'] at h
      | some u' =>
        simp [hu, hu'] at h
        simp [trackerFilterFunc, hu, hu', h]

omit [DecidableEq W] in
/-- C16 (`Close` only delegates): `Close` calls the `Close` of the wrapped consumer exactly
once, returns its result, and leaves the predicate and the tracker as they were. -/
theorem close_only_delegates (impl : Trace.Collector σ) (fc : genericRequestFilter σ W) :
    (fc.Close impl).calls = [()] ∧
      (fc.Close impl).ret = (impl.Close fc.Collector).2 ∧
      (fc.Close impl).fc.Collector = (impl.Close fc.Collector).1 ∧
      (fc.Close impl).fc.filterFunc = fc.filterFunc ∧
      (fc.Close impl).fc.filteredIDs = fc.filteredIDs :=
  ⟨rfl, rfl, rfl, rfl, rfl⟩

/-- C19 (path allowlist and path denylist are complements): for every list of patterns and
every Request, the path allowlist returns true exactly when the path denylist built from
the same patterns returns false, and false exactly when the denylist returns true; the
denylist's result is the negation of the allowlist's. -/
theorem path_filters_are_complements (Compile : String → Option Regexp)
    (matchers : List Regexp) (r : HTTPRequest) :
    (pathAllowlistFunc Compile matchers r = some true ↔
        pathFilterFunc Compile matchers r = some false) ∧
      (pathAllowlistFunc Compile matchers r = some false ↔
        pathFilterFunc Compile matchers r = some true) ∧
      pathFilterFunc Compile matchers r =
        (pathAllowlistFunc Compile matchers r).map (fun b => !b) := by
  cases hu : r.URL with
  | none => simp [pathAllowlistFunc, pathFilterFunc, hu]
  | some u =>
    cases hre : compileRegex Compile matchers with
    | none => simp [pathAllowlistFunc, pathFilterFunc, hu, hre, callMatchString]
    | some re =>
      cases hm : re.MatchString u.Path <;>
        simp [pathAllowlistFunc, pathFilterFunc, hu, hre, callMatchString, hm]

/-! ## Order of delivery and growth of the tracker -/

section Sequences

variable (impl : Trace.Collector σ) (ToWitnessID : UUID → Int → W)

/-- A completed call of `Process` leaves the state of the wrapped consumer as the
consumer's own calls on the forwarded events leave it. -/
theorem Process_collector (fc : genericRequestFilter σ W) (t : ParsedNetworkTraffic)
    (o : Outcome σ W ParsedNetworkTraffic) (h : fc.Process impl ToWitnessID t = some o) :
    (o.calls = [] ∨ o.calls = [t]) ∧
      o.fc.Collector = o.calls.foldl (fun s e => (impl.Process s e).1) fc.Collector := by
  obtain ⟨b, ids, -, -, -, ht, hf⟩ := Process_eq_some impl ToWitnessID fc t o h
  cases b with
  | true =>
    obtain ⟨h1, -, h3⟩ := ht rfl
    exact ⟨Or.inr h1, by rw [h1, h3]; rfl⟩
  | false =>
    obtain ⟨h1, -, h3⟩ := hf rfl
    exact ⟨Or.inl h1, by rw [h1, h3]; rfl⟩

/-- C13 (order preservation): in a run, the i-th call delivers nothing or exactly the
i-th event, unchanged; so the events delivered to the wrapped consumer, in the order of
delivery, are a sublist of the input sequence, and the state of the wrapped consumer
after the run is the result of its own `Process` on those events in that order. -/
theorem order_preservation (evs : List ParsedNetworkTraffic) :
    ∀ (fc : genericRequestFilter σ W)
      (r : genericRequestFilter σ W × List (Outcome σ W ParsedNetworkTraffic)),
      fc.run impl ToWitnessID evs = some r →
      List.Forall₂ (fun t o => o.calls = [] ∨ o.calls = [t]) evs r.2 ∧
        (r.2.flatMap (fun o => o.calls)).Sublist evs ∧
        r.1.Collector =
          (r.2.flatMap (fun o => o.calls)).foldl (fun s e => (impl.Process s e).1)
            fc.Collector := by
  induction evs with
  | nil =>
    intro fc r h
    simp [genericRequestFilter.run] at h
    subst h
    simp
  | cons t ts ih =>
    intro fc r h
    obtain ⟨fc', os⟩ := r
    obtain ⟨o, os', hp, hr, hos⟩ := run_cons impl ToWitnessID fc t ts fc' os h
    obtain ⟨h1, h2, h3⟩ := ih o.fc (fc', os') hr
    obtain ⟨hc, hcol⟩ := Process_collector impl ToWitnessID fc t o hp
    subst hos
    refine ⟨List.Forall₂.cons hc h1, ?_, ?_⟩
    · simp only [List.flatMap_cons]
      rcases hc with hc | hc
      · rw [hc]; exact List.Sublist.cons _ h2
      · rw [hc]; exact List.Sublist.cons₂ _ h2
    · simp only [List.flatMap_cons, List.foldl_append]
      rw [← hcol]
      exact h3

theorem runCalls_ids (calls : List Call) :
    ∀ (fc fc' : genericRequestFilter σ W),
      fc.runCalls impl ToWitnessID calls = some fc' →
      fc'.filterFunc = fc.filterFunc ∧ fc.ids ⊆ fc'.ids := by
  induction calls with
  | nil =>
    intro fc fc' h
    simp [genericRequestFilter.runCalls] at h
    subst h
    exact ⟨rfl, Finset.Subset.refl _⟩
  | cons c cs ih =>
    intro fc fc' h
    cases c with
    | process t =>
      simp only [genericRequestFilter.runCalls] at h
      cases hp : fc.Process impl ToWitnessID t with
      | none => simp [hp] at h
      | some o =>
        simp only [hp] at h
        obtain ⟨h1, h2⟩ := ih o.fc fc' h
        exact ⟨h1.trans (Process_filterFunc impl ToWitnessID fc t o hp),
          (Process_ids impl ToWitnessID fc t o hp).1.trans h2⟩
    | close =>
      simp only [genericRequestFilter.runCalls] at h
      have h' := ih (fc.Close impl).fc fc' h
      exact h'

/-- C14 (the tracker is insertion-only): every identifier in the tracker before a
completed call of `Process` is in it after the call, whatever the wrapped consumer
returned; `Close` leaves the tracker as it was; so after any sequence of calls of `Process`
and `Close` the tracker contains the tracker it started from. -/
theorem tracker_insertion_only (fc : genericRequestFilter σ W) :
    (∀ t o, fc.Process impl ToWitnessID t = some o → fc.ids ⊆ o.fc.ids) ∧
      (fc.Close impl).fc.filteredIDs = fc.filteredIDs ∧
      (∀ calls fc', fc.runCalls impl ToWitnessID calls = some fc' → fc.ids ⊆ fc'.ids) :=
  ⟨fun t o h => (Process_ids impl ToWitnessID fc t o h).1, rfl,
   fun calls fc' h => (runCalls_ids impl ToWitnessID calls fc fc' h).2⟩

/-- C18 (the tracker changes only on a rejected Request): a call of `Process` on a
Response, dropped or forwarded, or on a Request that the predicate accepts (or with no
predicate), completes and leaves `filteredIDs` exactly as it was, so a matched Response
keeps its entry; and two calls in a row on the same rejected Request complete and the
second leaves the tracker as the first left it. -/
theorem tracker_changes_only_on_rejection (fc : genericRequestFilter σ W)
    (t : ParsedNetworkTraffic) :
    (∀ c, t.Content = .HTTPResponse c →
        ∃ o, fc.Process impl ToWitnessID t = some o ∧ o.fc.filteredIDs = fc.filteredIDs ∧
          (ToWitnessID c.StreamID c.Seq ∈ fc.ids →
            o.calls = [] ∧ ToWitnessID c.StreamID c.Seq ∈ o.fc.ids)) ∧
      (∀ c, t.Content = .HTTPRequest c →
        (fc.filterFunc = none ∨ ∃ f, fc.filterFunc = some f ∧ f c = some true) →
        ∃ o, fc.Process impl ToWitnessID t = some o ∧ o.fc.filteredIDs = fc.filteredIDs) ∧
      (∀ c f, t.Content = .HTTPRequest c → fc.filterFunc = some f → f c = some false →
        ∃ o1 o2, fc.Process impl ToWitnessID t = some o1 ∧
          o1.fc.Process impl ToWitnessID t = some o2 ∧
          o2.fc.filteredIDs = o1.fc.filteredIDs) := by
  refine ⟨?_, ?_, ?_⟩
  · intro c hc
    by_cases hm : ToWitnessID c.StreamID c.Seq ∈ fc.ids
    · exact ⟨_, Process_response_mem impl ToWitnessID fc t c hc hm, rfl,
        fun _ => ⟨rfl, hm⟩⟩
    · exact ⟨_, Process_response_not_mem impl ToWitnessID fc t c hc hm, rfl,
        fun h => absurd h hm⟩
  · intro c hc hf
    rcases hf with hf | ⟨f, hf, hfc⟩
    · refine ⟨{ fc := { fc with Collector := (impl.Process fc.Collector t).1 },
                calls := [t], ret := (impl.Process fc.Collector t).2 }, ?_, rfl⟩
      simp [genericRequestFilter.Process, typeSwitch_request ToWitnessID fc t c hc, hf]
    · refine ⟨{ fc := { fc with Collector := (impl.Process fc.Collector t).1 },
                calls := [t], ret := (impl.Process fc.Collector t).2 }, ?_, rfl⟩
      simp [genericRequestFilter.Process, typeSwitch_request ToWitnessID fc t c hc, hf,
        hfc]
  · intro c f hc hf hfc
    refine ⟨_, _, Process_rejected impl ToWitnessID fc t c f hc hf hfc,
      Process_rejected impl ToWitnessID _ t c f hc hf hfc, ?_⟩
    simp [genericRequestFilter.ids]

/-- C17 (a Response that arrives before its Request leaks): on a stage that started with
an empty tracker and has processed no rejected Request with the witness identifier of
(S, N), a Response with (S, N) is forwarded to the wrapped consumer; a Request with (S, N)
that the predicate rejects, processed right after it, is dropped and recorded: the
Request is dropped while its paired Response has been delivered. -/
theorem response_before_request_leak (fc : genericRequestFilter σ W)
    (f : HTTPRequest → Option Bool) (evs : List ParsedNetworkTraffic)
    (r : genericRequestFilter σ W × List (Outcome σ W ParsedNetworkTraffic))
    (t' t : ParsedNetworkTraffic) (c' : HTTPResponse) (c : HTTPRequest)
    (hempty : fc.ids = ∅) (hf : fc.filterFunc = some f)
    (hrun : fc.run impl ToWitnessID evs = some r)
    (hnone : ∀ t0 ∈ evs, ∀ c0, t0.Content = .HTTPRequest c0 → f c0 = some false →
      ToWitnessID c0.StreamID c0.Seq ≠ ToWitnessID c'.StreamID c'.Seq)
    (hc' : t'.Content = .HTTPResponse c') (hc : t.Content = .HTTPRequest c)
    (hS : c.StreamID = c'.StreamID) (hN : c.Seq = c'.Seq) (hfc : f c = some false) :
    ∃ fc2 o1 o2, r.1.run impl ToWitnessID [t', t] = some (fc2, [o1, o2]) ∧
      o1.calls = [t'] ∧ o1.ret = (impl.Process r.1.Collector t').2 ∧
      o2.calls = [] ∧ o2.ret = none ∧ ToWitnessID c'.StreamID c'.Seq ∈ fc2.ids := by
  obtain ⟨fc1, os⟩ := r
  obtain ⟨hff, -, hnew⟩ := run_ids impl ToWitnessID evs fc fc1 os hrun
  have hnot : ToWitnessID c'.StreamID c'.Seq ∉ fc1.ids := by
    intro hm
    rcases hnew _ hm with h0 | ⟨t0, c0, f0, ht0, hc0, hf0, hfc0, hw⟩
    · rw [hempty] at h0; simp at h0
    · rw [hf] at hf0
      have hf0 := Option.some.inj hf0
      subst hf0
      exact hnone t0 ht0 c0 hc0 hfc0 hw
  have h1 := Process_response_not_mem impl ToWitnessID fc1 t' c' hc' hnot
  have hf1 : ({ fc1 with Collector := (impl.Process fc1.Collector t').1 } :
      genericRequestFilter σ W).filterFunc = some f := by
    simp only; rw [hff, hf]
  have h2 := Process_rejected impl ToWitnessID _ t c f hc hf1 hfc
  simp only [genericRequestFilter.run, h1, h2]
  refine ⟨_, _, _, rfl, rfl, rfl, rfl, rfl, ?_⟩
  simp [genericRequestFilter.ids, hS, hN]

end Sequences

/-! ## Two stages in a chain -/

section Chain

variable (impl : Trace.Collector σ) (ToWitnessID : UUID → Int → W)
variable (p1 p2 : HTTPRequest → Bool)

theorem runChained_cons (fc : genericRequestFilter (genericRequestFilter σ W) W)
    (t : ParsedNetworkTraffic) (ts : List ParsedNetworkTraffic)
    (r : genericRequestFilter (genericRequestFilter σ W) W × List ParsedNetworkTraffic)
    (h : fc.runChained impl ToWitnessID (t :: ts) = some r) :
    ∃ o ds, fc.ProcessChained impl ToWitnessID t = some o ∧
      o.fc.runChained impl ToWitnessID ts = some (r.1, ds) ∧ r.2 = o.delivered ++ ds := by
  simp only [genericRequestFilter.runChained] at h
  cases hp : fc.ProcessChained impl ToWitnessID t with
  | none => simp [hp] at h
  | some o =>
    cases hr : o.fc.runChained impl ToWitnessID ts with
    | none => simp [hp, hr] at h
    | some r' =>
      obtain ⟨fc2, ds⟩ := r'
      simp [hp, hr] at h
      exact ⟨o, ds, rfl, by rw [hr, ← h], by rw [← h]⟩

/-- A stage whose predicate always returns completes every call of `Process`. -/
theorem Process_of_total (fc : genericRequestFilter σ W) (p : HTTPRequest → Bool)
    (hf : fc.filterFunc = some (fun r => some (p r))) (t : ParsedNetworkTraffic) :
    ∃ o, fc.Process impl ToWitnessID t = some o := by
  cases h : fc.Process impl ToWitnessID t with
  | some o => exact ⟨o, rfl⟩
  | none =>
    obtain ⟨c, f, -, hf', hfc⟩ := (Process_eq_none_iff impl ToWitnessID fc t).mp h
    rw [hf] at hf'
    have := Option.some.inj hf'
    subst this
    simp at hfc

/-- The chained call is `Process` itself: for any implementation `inner` of the interface
`Collector` that returns what the inner stage's `Process` returns, a completed chained
call is the call of `Process` on the outer stage with `inner` as its wrapped consumer. -/
theorem ProcessChained_eq_Process (inner : Trace.Collector (genericRequestFilter σ W))
    (fc : genericRequestFilter (genericRequestFilter σ W) W) (t : ParsedNetworkTraffic)
    (hinner : ∀ o, fc.Collector.Process impl ToWitnessID t = some o →
      inner.Process fc.Collector t = (o.fc, o.ret))
    (o : ChainOutcome σ W) (h : fc.ProcessChained impl ToWitnessID t = some o) :
    fc.Process inner ToWitnessID t = some { fc := o.fc, calls := o.calls, ret := o.ret } := by
  unfold genericRequestFilter.ProcessChained at h
  unfold genericRequestFilter.Process
  cases hsw : fc.typeSwitch ToWitnessID t with
  | none => simp [hsw] at h
  | some r =>
    obtain ⟨b, ids⟩ := r
    cases b with
    | false =>
      simp [hsw] at h
      subst h
      rfl
    | true =>
      cases hi : fc.Collector.Process impl ToWitnessID t with
      | none => simp [hsw, hi] at h
      | some oi =>
        simp [hsw, hi] at h
        subst h
        simp [hinner oi hi]

/-- One call on a chain of two stages whose predicates always return: the call
completes, keeps both predicates, removes nothing from either tracker, and delivers to the
final consumer nothing or the event itself; a Request rejected by one of the predicates
is not delivered and is recorded in one of the trackers; a Response whose identifier is
in one of the trackers is not delivered. -/
theorem ProcessChained_step (fc : genericRequestFilter (genericRequestFilter σ W) W)
    (hf1 : fc.filterFunc = some (fun r => some (p1 r)))
    (hf2 : fc.Collector.filterFunc = some (fun r => some (p2 r)))
    (t : ParsedNetworkTraffic) :
    ∃ o, fc.ProcessChained impl ToWitnessID t = some o ∧
      o.fc.filterFunc = fc.filterFunc ∧
      o.fc.Collector.filterFunc = fc.Collector.filterFunc ∧
      fc.ids ⊆ o.fc.ids ∧ fc.Collector.ids ⊆ o.fc.Collector.ids ∧
      (o.delivered = [] ∨ o.delivered = [t]) ∧
      (∀ c, t.Content = .HTTPRequest c →
        (o.delivered = [t] → p1 c = true ∧ p2 c = true) ∧
        ((p1 c = false ∨ p2 c = false) →
          ToWitnessID c.StreamID c.Seq ∈ o.fc.ids ∨
            ToWitnessID c.StreamID c.Seq ∈ o.fc.Collector.ids)) ∧
      (∀ c, t.Content = .HTTPResponse c →
        (ToWitnessID c.StreamID c.Seq ∈ fc.ids ∨
          ToWitnessID c.StreamID c.Seq ∈ fc.Collector.ids) → o.delivered = []) := by
  obtain ⟨oi, hoi⟩ := Process_of_total impl ToWitnessID fc.Collector p2 hf2 t
  have hif := Process_filterFunc impl ToWitnessID fc.Collector t oi hoi
  have hiids := (Process_ids impl ToWitnessID fc.Collector t oi hoi).1
  have hicalls := (Process_collector impl ToWitnessID fc.Collector t oi hoi).1
  cases hc : t.Content with
  | HTTPRequest c =>
    cases h1 : p1 c with
    | false =>
      refine ⟨{ fc := { fc with
                        filteredIDs := some (insert (ToWitnessID c.StreamID c.Seq) fc.ids) },
                calls := [], delivered := [], ret := none }, ?_, rfl, rfl, ?_,
        Finset.Subset.refl _, Or.inl rfl, ?_, ?_⟩
      · simp [genericRequestFilter.ProcessChained, typeSwitch_request ToWitnessID fc t c hc,
          hf1, h1]
      · simp [genericRequestFilter.ids]
      · intro c0 hc0
        have hcc : c0 = c := by simpa using hc0.symm
        subst hcc
        simp [genericRequestFilter.ids]
      · intro c0 hc0
        simp at hc0
    | true =>
      have hout : fc.ProcessChained impl ToWitnessID t =
          some { fc := { fc with Collector := oi.fc }, calls := [t], delivered := oi.calls,
                 ret := oi.ret } := by
        simp [genericRequestFilter.ProcessChained, typeSwitch_request ToWitnessID fc t c hc,
          hf1, h1, hoi]
      refine ⟨_, hout, rfl, hif, Finset.Subset.refl _, hiids, hicalls, ?_, ?_⟩
      · intro c0 hc0
        have hcc : c0 = c := by simpa using hc0.symm
        subst hcc
        cases h2 : p2 c0 with
        | true => simp [h1]
        | false =>
          have hrej := Process_rejected impl ToWitnessID fc.Collector t c0 _ hc hf2
            (by simp [h2])
          rw [hrej] at hoi
          have hoi := Option.some.inj hoi
          subst hoi
          simp [genericRequestFilter.ids]
      · intro c0 hc0
        simp at hc0
  | HTTPResponse c =>
    by_cases hm1 : ToWitnessID c.StreamID c.Seq ∈ fc.ids
    · refine ⟨{ fc := fc, calls := [], delivered := [], ret := none }, ?_, rfl, rfl,
        Finset.Subset.refl _, Finset.Subset.refl _, Or.inl rfl, ?_, ?_⟩
      · simp [genericRequestFilter.ProcessChained, typeSwitch_response ToWitnessID fc t c hc,
          hm1]
      · intro c0 hc0
        simp at hc0
      · intro c0 hc0 _
        rfl
    · have hout : fc.ProcessChained impl ToWitnessID t =
          some { fc := { fc with Collector := oi.fc }, calls := [t], delivered := oi.calls,
                 ret := oi.ret } := by
        simp [genericRequestFilter.ProcessChained, typeSwitch_response ToWitnessID fc t c hc,
          hm1, hoi]
      refine ⟨_, hout, rfl, hif, Finset.Subset.refl _, hiids, hicalls, ?_, ?_⟩
      · intro c0 hc0
        simp at hc0
      · intro c0 hc0 hm
        have hcc : c0 = c := by simpa using hc0.symm
        subst hcc
        rcases hm with hm | hm
        · exact absurd hm hm1
        · rw [Process_response_mem impl ToWitnessID fc.Collector t c0 hc hm] at hoi
          rw [← Option.some.inj hoi]
  | other k q =>
    have hout : fc.ProcessChained impl ToWitnessID t =
        some { fc := { fc with Collector := oi.fc }, calls := [t], delivered := oi.calls,
               ret := oi.ret } := by
      simp [genericRequestFilter.ProcessChained, typeSwitch_other ToWitnessID fc t k q hc,
        hoi]
    refine ⟨_, hout, rfl, hif, Finset.Subset.refl _, hiids, hicalls, ?_, ?_⟩
    · intro c0 hc0
      simp at hc0
    · intro c0 hc0
      simp at hc0

/-- A run on a chain of two stages whose predicates always return completes, keeps both
predicates, removes nothing from either tracker, and delivers to the final consumer a
sublist of the events in which every Request is accepted by both predicates. -/
theorem runChained_inv (evs : List ParsedNetworkTraffic) :
    ∀ fc : genericRequestFilter (genericRequestFilter σ W) W,
      fc.filterFunc = some (fun r => some (p1 r)) →
      fc.Collector.filterFunc = some (fun r => some (p2 r)) →
      ∃ r, fc.runChained impl ToWitnessID evs = some r ∧
        r.1.filterFunc = fc.filterFunc ∧
        r.1.Collector.filterFunc = fc.Collector.filterFunc ∧
        fc.ids ⊆ r.1.ids ∧ fc.Collector.ids ⊆ r.1.Collector.ids ∧
        r.2.Sublist evs ∧
        ∀ t ∈ r.2, ∀ c, t.Content = .HTTPRequest c → p1 c = true ∧ p2 c = true := by
  induction evs with
  | nil =>
    intro fc _ _
    exact ⟨(fc, []), rfl, rfl, rfl, Finset.Subset.refl _, Finset.Subset.refl _,
      List.Sublist.slnil, by simp⟩
  | cons t ts ih =>
    intro fc hf1 hf2
    obtain ⟨o, ho, hof1, hof2, hs1, hs2, hd, hreq, -⟩ :=
      ProcessChained_step impl ToWitnessID p1 p2 fc hf1 hf2 t
    obtain ⟨r, hr, hrf1, hrf2, hrs1, hrs2, hsub, hall⟩ :=
      ih o.fc (hof1.trans hf1) (hof2.trans hf2)
    refine ⟨(r.1, o.delivered ++ r.2), ?_, hrf1.trans hof1, hrf2.trans hof2,
      hs1.trans hrs1, hs2.trans hrs2, ?_, ?_⟩
    · simp [genericRequestFilter.runChained, ho, hr]
    · rcases hd with hd | hd
      · rw [hd]; exact List.Sublist.cons _ hsub
      · rw [hd]; exact List.Sublist.cons₂ _ hsub
    · intro t0 ht0 c hc
      rcases List.mem_append.mp ht0 with h | h
      · rcases hd with hd | hd
        · rw [hd] at h; simp at h
        · rw [hd] at h
          have : t0 = t := by simpa using h
          subst this
          exact (hreq c hc).1 hd
      · exact hall t0 h c hc

/-- After a run on a chain that contains a Request rejected by one of the two predicates,
the witness identifier of that Request is in one of the two trackers. -/
theorem runChained_rejected (t : ParsedNetworkTraffic) (c : HTTPRequest)
    (hc : t.Content = .HTTPRequest c) (hrej : p1 c = false ∨ p2 c = false)
    (evs2 evs1 : List ParsedNetworkTraffic) :
    ∀ fc : genericRequestFilter (genericRequestFilter σ W) W,
      fc.filterFunc = some (fun r => some (p1 r)) →
      fc.Collector.filterFunc = some (fun r => some (p2 r)) →
      ∃ r, fc.runChained impl ToWitnessID (evs1 ++ t :: evs2) = some r ∧
        r.1.filterFunc = fc.filterFunc ∧
        r.1.Collector.filterFunc = fc.Collector.filterFunc ∧
        (ToWitnessID c.StreamID c.Seq ∈ r.1.ids ∨
          ToWitnessID c.StreamID c.Seq ∈ r.1.Collector.ids) := by
  induction evs1 with
  | nil =>
    intro fc hf1 hf2
    obtain ⟨o, ho, hof1, hof2, -, -, -, hreq, -⟩ :=
      ProcessChained_step impl ToWitnessID p1 p2 fc hf1 hf2 t
    obtain ⟨r, hr, hrf1, hrf2, hrs1, hrs2, -, -⟩ :=
      runChained_inv impl ToWitnessID p1 p2 evs2 o.fc (hof1.trans hf1) (hof2.trans hf2)
    refine ⟨(r.1, o.delivered ++ r.2), ?_, hrf1.trans hof1, hrf2.trans hof2, ?_⟩
    · simp [genericRequestFilter.runChained, ho, hr]
    · rcases (hreq c hc).2 hrej with h | h
      · exact Or.inl (hrs1 h)
      · exact Or.inr (hrs2 h)
  | cons e evs1 ih =>
    intro fc hf1 hf2
    obtain ⟨o, ho, hof1, hof2, -, -, -, -, -⟩ :=
      ProcessChained_step impl ToWitnessID p1 p2 fc hf1 hf2 e
    obtain ⟨r, hr, hrf1, hrf2, hmem⟩ := ih o.fc (hof1.trans hf1) (hof2.trans hf2)
    refine ⟨(r.1, o.delivered ++ r.2), ?_, hrf1.trans hof1, hrf2.trans hof2, hmem⟩
    simp [genericRequestFilter.runChained, ho, hr]

/-- C12 (chaining): for two predicates `p1` and `p2`, stage 1 (`p1`) wrapping stage 2
(`p2`) wrapping a final consumer, both trackers initially nil, and every sequence of
events given to stage 1: the run completes and the events delivered to the final consumer
are a sublist of the sequence in which every Request is accepted by both predicates; and
once a Request with (S, N) rejected by `p1` or by `p2` has been processed, the call that
processes a Response with (S, N), after any further events, delivers nothing to the final
consumer. -/
theorem chaining (col : σ) :
    (∀ evs, ∃ r,
        (stageOf p1 (stageOf p2 col : genericRequestFilter σ W) :
          genericRequestFilter (genericRequestFilter σ W) W).runChained impl ToWitnessID evs
          = some r ∧
        r.2.Sublist evs ∧
        ∀ t ∈ r.2, ∀ c, t.Content = .HTTPRequest c → p1 c = true ∧ p2 c = true) ∧
      (∀ evs1 evs2 t t' c c', t.Content = .HTTPRequest c → (p1 c = false ∨ p2 c = false) →
        t'.Content = .HTTPResponse c' → c'.StreamID = c.StreamID → c'.Seq = c.Seq →
        ∃ r o,
          (stageOf p1 (stageOf p2 col : genericRequestFilter σ W) :
            genericRequestFilter (genericRequestFilter σ W) W).runChained impl ToWitnessID
            (evs1 ++ t :: evs2) = some r ∧
          r.1.ProcessChained impl ToWitnessID t' = some o ∧ o.delivered = []) := by
  refine ⟨fun evs => ?_, fun evs1 evs2 t t' c c' hc hrej hc' hS hN => ?_⟩
  · obtain ⟨r, hr, -, -, -, -, hsub, hall⟩ :=
      runChained_inv impl ToWitnessID p1 p2 evs (stageOf p1 (stageOf p2 col)) rfl rfl
    exact ⟨r, hr, hsub, hall⟩
  · obtain ⟨r, hr, hrf1, hrf2, hmem⟩ :=
      runChained_rejected impl ToWitnessID p1 p2 t c hc hrej evs2 evs1
        (stageOf p1 (stageOf p2 col)) rfl rfl
    obtain ⟨o, ho, -, -, -, -, -, -, hresp⟩ :=
      ProcessChained_step impl ToWitnessID p1 p2 r.1 hrf1 hrf2 t'
    refine ⟨r, o, hr, ho, hresp c' hc' ?_⟩
    rw [hS, hN]
    exact hmem

end Chain

/-! ### Witnesses on concrete runs -/

/-- Witness of C12: on the chain `notHealth` around `notTrackerHost`, of the seven events
of `chainScenario` the final consumer receives the Request accepted by both stages, the
event of another kind and the Response of the accepted Request, in that order. -/
theorem chaining_witness :
    (Example.chain.runChained Example.recorder Example.pairID Example.chainScenario).map
        (fun r => r.2) =
        some [Example.req 1 3 "svc.local" "/api/users", Example.tcpMeta, Example.resp 1 3] ∧
      ∃ r, Example.chain.runChained Example.recorder Example.pairID Example.chainScenario =
          some r ∧ r.2.Sublist Example.chainScenario ∧
        ∀ t ∈ r.2, ∀ c, t.Content = .HTTPRequest c →
          Example.notHealth c = true ∧ Example.notTrackerHost c = true :=
  ⟨by decide,
   (chaining (W := UUID × Int) Example.recorder Example.pairID Example.notHealth
     Example.notTrackerHost []).1 Example.chainScenario⟩

/-- Witness of C13: on the scenario of the specification the path denylist delivers the
second Request and its Response, a sublist of the scenario. -/
theorem order_preservation_witness :
    ((Example.healthStage.run Example.recorder Example.pairID Example.scenario).get
        (by decide)).2.flatMap (fun o => o.calls) =
        [Example.req 1 2 "svc.local" "/api/users", Example.resp 1 2] ∧
      (((Example.healthStage.run Example.recorder Example.pairID Example.scenario).get
        (by decide)).2.flatMap (fun o => o.calls)).Sublist Example.scenario :=
  ⟨by decide,
   (order_preservation Example.recorder Example.pairID Example.scenario Example.healthStage
     ((Example.healthStage.run Example.recorder Example.pairID Example.scenario).get
       (by decide)) (Option.some_get _).symm).2.1⟩

/-- Witness of C14: with a consumer whose every call fails, the forwarded Request returns
the consumer's error, and after that call, `Close` and a Response the entry (1, 1) is
still in the tracker. -/
theorem tracker_insertion_only_witness :
    (Example.healthStageFailingWithEntry.Process Example.failing Example.pairID
        (Example.req 1 2 "svc.local" "/api/users")).map (fun o => o.ret) =
        some (some "downstream failure") ∧
      Example.healthStageFailingWithEntry.ids ⊆
        ((Example.healthStageFailingWithEntry.runCalls Example.failing Example.pairID
          Example.someCalls).get (by decide)).ids :=
  ⟨by decide,
   (tracker_insertion_only Example.failing Example.pairID
     Example.healthStageFailingWithEntry).2.2 Example.someCalls _ (Option.some_get _).symm⟩

/-- Witness of C17: after the second pair of the scenario, the Response (1, 1) is forwarded
and the Request (1, 1) to `/health` that follows it is dropped and recorded. -/
theorem response_before_request_leak_witness :
    ∃ fc2 o1 o2,
      ((Example.healthStage.run Example.recorder Example.pairID
          [Example.req 1 2 "svc.local" "/api/users", Example.resp 1 2]).get
          (by decide)).1.run Example.recorder Example.pairID
          [Example.resp 1 1, Example.req 1 1 "svc.local" "/health"] = some (fc2, [o1, o2]) ∧
        o1.calls = [Example.resp 1 1] ∧
        o1.ret = (Example.recorder.Process
          ((Example.healthStage.run Example.recorder Example.pairID
            [Example.req 1 2 "svc.local" "/api/users", Example.resp 1 2]).get
            (by decide)).1.Collector (Example.resp 1 1)).2 ∧
        o2.calls = [] ∧ o2.ret = none ∧
        Example.pairID (Example.httpResp 1 1).StreamID (Example.httpResp 1 1).Seq ∈ fc2.ids :=
  response_before_request_leak Example.recorder Example.pairID Example.healthStage
    (pathFilterFunc Go.Compile [Example.health])
    [Example.req 1 2 "svc.local" "/api/users", Example.resp 1 2]
    ((Example.healthStage.run Example.recorder Example.pairID
      [Example.req 1 2 "svc.local" "/api/users", Example.resp 1 2]).get (by decide))
    (Example.resp 1 1) (Example.req 1 1 "svc.local" "/health")
    (Example.httpResp 1 1) (Example.httpReq 1 1 "svc.local" "/health")
    (by decide) rfl (Option.some_get _).symm
    (by
      intro t0 ht0 c0 hc0 hfc0 hw
      simp only [List.mem_cons, List.mem_singleton, List.not_mem_nil, or_false] at ht0
      rcases ht0 with rfl | rfl
      · have h0 : c0 = Example.httpReq 1 2 "svc.local" "/api/users" := by
          simpa [Example.req] using hc0.symm
        subst h0
        revert hfc0
        decide
      · simp [Example.resp] at hc0)
    rfl rfl rfl rfl (by decide)

/-- Witness of C18: the rejected Request (1, 1) of the scenario, processed twice in a row,
leaves the tracker after the second call as it was after the first. -/
theorem tracker_changes_only_on_rejection_witness :
    ∃ o1 o2, Example.healthStage.Process Example.recorder Example.pairID
        (Example.req 1 1 "svc.local" "/health") = some o1 ∧
      o1.fc.Process Example.recorder Example.pairID
        (Example.req 1 1 "svc.local" "/health") = some o2 ∧
      o2.fc.filteredIDs = o1.fc.filteredIDs :=
  (tracker_changes_only_on_rejection Example.recorder Example.pairID Example.healthStage
    (Example.req 1 1 "svc.local" "/health")).2.2
    (Example.httpReq 1 1 "svc.local" "/health") (pathFilterFunc Go.Compile [Example.health])
    rfl rfl (by decide)

end Trace
